import Mathlib

/-
Shallow embedding of the Bitespeed identity-reconciliation service
(src/src/index.ts) and of the contacts table (src/database.sql).

Timestamps are modelled as natural numbers; each call to the engine takes
the current timestamp as an argument (CURRENT_TIMESTAMP).  The store is a
list of rows in insertion order together with the next SERIAL id.  The SQL
ORDER BY createdAt ASC is modelled by a stable insertion sort, a
deterministic refinement of the unspecified tie order.
-/

namespace BiteSpeed

inductive LinkPrecedence where
  | primary
  | secondary
deriving DecidableEq, Repr

/-- One row of the contacts table (index.ts lines 17-26, database.sql). -/
structure Contact where
  id : Nat
  phoneNumber : Option String
  email : Option String
  linkedId : Option Nat
  linkPrecedence : LinkPrecedence
  createdAt : Nat
  updatedAt : Nat
  deletedAt : Option Nat
deriving DecidableEq, Repr

/-- The contacts table plus the SERIAL id counter. -/
structure DB where
  contacts : List Contact
  nextId : Nat
deriving DecidableEq, Repr

/-- The consolidated view (index.ts lines 33-40). -/
structure ContactView where
  primaryContactId : Nat
  emails : List String
  phoneNumbers : List String
  secondaryContactIds : List Nat
deriving DecidableEq, Repr

structure IdentifyResponse where
  contact : ContactView
deriving DecidableEq, Repr

/-- JavaScript truthiness of an optional string: undefined and the empty
string are falsy. -/
def truthyStr : Option String → Bool
  | some s => !(s == "")
  | none => false

/-- JavaScript truthiness of an optional number: undefined and 0 are falsy. -/
def truthyNum : Option Nat → Bool
  | some n => !(n == 0)
  | none => false

/-- The value `email || null` passed as query parameter $1
(index.ts lines 69, 80, 120): a falsy email becomes SQL NULL. -/
def emailParam (email : Option String) : Option String :=
  match email with
  | some s => if s == "" then none else some s
  | none => none

/-- The value `phoneNumber?.toString() || null` passed as query parameter
(index.ts lines 69, 80, 121): undefined becomes NULL, any number becomes
its decimal string (0 becomes the truthy string "0"). -/
def phoneParam (phone : Option Nat) : Option String :=
  phone.map Nat.repr

/-- SQL equality against a possibly NULL parameter or column: a NULL on
either side never matches. -/
def optEq : Option String → Option String → Bool
  | some a, some b => a == b
  | _, _ => false

/-- Row predicate of the match query
`(email = $1 OR phoneNumber = $2) AND deletedAt IS NULL`
(index.ts lines 63-68). -/
def matchesInput (email : Option String) (phone : Option Nat) (c : Contact) : Bool :=
  c.deletedAt.isNone && (optEq (emailParam email) c.email || optEq (phoneParam phone) c.phoneNumber)

/-- Stable insertion placing `c` before the first row with a strictly later
(or equal and later-inserted) createdAt. -/
def insertByCreatedAt (c : Contact) : List Contact → List Contact
  | [] => [c]
  | d :: ds => if c.createdAt ≤ d.createdAt then c :: d :: ds else d :: insertByCreatedAt c ds

/-- Stable sort modelling ORDER BY createdAt ASC. -/
def sortByCreatedAt : List Contact → List Contact
  | [] => []
  | c :: cs => insertByCreatedAt c (sortByCreatedAt cs)

/-- First-occurrence deduplication, the order produced by
`[...new Set(list)]` in JavaScript (index.ts lines 130-140). -/
def dedupFirst : List String → List String
  | [] => []
  | s :: ss => s :: (dedupFirst ss).filter (fun t => !(t == s))

/-- Row predicate of the linked-contacts query
`linkedId = $1 AND deletedAt IS NULL` (index.ts lines 100-104). -/
def linkedToB (pid : Nat) (c : Contact) : Bool :=
  (c.linkedId == some pid) && c.deletedAt.isNone

/-- Step 1 of the algorithm (index.ts lines 60-71): the guarded match
query, rows ordered by createdAt ascending.  With both inputs falsy the
query is skipped and the list stays empty. -/
def existingContactsFor (email : Option String) (phone : Option Nat) (db : DB) : List Contact :=
  if truthyStr email || truthyNum phone then
    sortByCreatedAt (db.contacts.filter (matchesInput email phone))
  else []

/-- The linked-contacts query result (index.ts lines 100-106). -/
def secondariesOf (pid : Nat) (db : DB) : List Contact :=
  sortByCreatedAt (db.contacts.filter (linkedToB pid))

/-- `allLinkedContacts` before any insertion (index.ts lines 97-106):
the working primary followed by the rows linked to it. -/
def gatherCluster (pc : Contact) (db : DB) : List Contact :=
  pc :: secondariesOf pc.id db

/-- `hasNewEmail` (index.ts line 109): the raw email is truthy and no
gathered row carries exactly that email. -/
def hasNewEmailB (email : Option String) (cluster : List Contact) : Bool :=
  match email with
  | some e => (!(e == "")) && !(cluster.any (fun c => c.email == some e))
  | none => false

/-- `hasNewPhone` (index.ts line 110): the raw phone is truthy and no
gathered row carries its string form. -/
def hasNewPhoneB (phone : Option Nat) (cluster : List Contact) : Bool :=
  match phone with
  | some p => (!(p == 0)) && !(cluster.any (fun c => c.phoneNumber == some (Nat.repr p)))
  | none => false

/-- A freshly inserted row (index.ts lines 75-81, 114-123): SERIAL id,
parameters as stored by the INSERT, both timestamps CURRENT_TIMESTAMP. -/
def mkContact (id : Nat) (email : Option String) (phone : Option Nat)
    (linkedId : Option Nat) (prec : LinkPrecedence) (now : Nat) : Contact :=
  { id := id
  , phoneNumber := phoneParam phone
  , email := emailParam email
  , linkedId := linkedId
  , linkPrecedence := prec
  , createdAt := now
  , updatedAt := now
  , deletedAt := none }

/-- Step 6 (index.ts lines 129-153): consolidation of `allLinkedContacts`. -/
def consolidate (primaryContact : Contact) (allLinkedContacts : List Contact) : ContactView :=
  { primaryContactId := primaryContact.id
  , emails := dedupFirst (allLinkedContacts.filterMap (fun c => c.email))
  , phoneNumbers := dedupFirst (allLinkedContacts.filterMap (fun c => c.phoneNumber))
  , secondaryContactIds :=
      (allLinkedContacts.filter (fun c => !(c.id == primaryContact.id))).map (fun c => c.id) }

/-- `email ? [email] : []` (index.ts line 88): the raw input under
JavaScript truthiness. -/
def rawEmailList (email : Option String) : List String :=
  match email with
  | some e => if e == "" then [] else [e]
  | none => []

/-- `phoneNumber ? [phoneNumber.toString()] : []` (index.ts line 89). -/
def rawPhoneList (phone : Option Nat) : List String :=
  match phone with
  | some p => if p == 0 then [] else [Nat.repr p]
  | none => []

/-- Step 2, the no-match branch (index.ts lines 74-93): insert a primary
row and answer from the raw inputs under JavaScript truthiness. -/
def identifyNew (email : Option String) (phone : Option Nat) (now : Nat) (db : DB) :
    IdentifyResponse × DB :=
  let newContact := mkContact db.nextId email phone none LinkPrecedence.primary now
  (⟨{ primaryContactId := newContact.id
    , emails := rawEmailList email
    , phoneNumbers := rawPhoneList phone
    , secondaryContactIds := [] }⟩,
   ⟨db.contacts ++ [newContact], db.nextId + 1⟩)

/-- Steps 3-6, the matched branch (index.ts lines 95-153): the working
primary is the first matched row; gather its direct links, optionally
insert one secondary, consolidate. -/
def identifyMatched (pc : Contact) (email : Option String) (phone : Option Nat)
    (now : Nat) (db : DB) : IdentifyResponse × DB :=
  let cluster := gatherCluster pc db
  if hasNewEmailB email cluster || hasNewPhoneB phone cluster then
    let newContact := mkContact db.nextId email phone (some pc.id) LinkPrecedence.secondary now
    (⟨consolidate pc (cluster ++ [newContact])⟩, ⟨db.contacts ++ [newContact], db.nextId + 1⟩)
  else
    (⟨consolidate pc cluster⟩, db)

/-- The resolution engine `identifyCustomer` (index.ts lines 53-162),
success path. -/
def identifyCustomer (email : Option String) (phone : Option Nat) (now : Nat) (db : DB) :
    IdentifyResponse × DB :=
  match existingContactsFor email phone db with
  | [] => identifyNew email phone now db
  | pc :: _ => identifyMatched pc email phone now db

/-- The POST /identify handler (index.ts lines 165-188): reject when both
inputs are falsy with HTTP 400 and no engine call, otherwise run the
engine and answer 200. -/
def handleIdentify (email : Option String) (phone : Option Nat) (now : Nat) (db : DB) :
    (Nat × Except String IdentifyResponse) × DB :=
  if !(truthyStr email) && !(truthyNum phone) then
    ((400, Except.error "At least one of email or phoneNumber is required"), db)
  else
    let r := identifyCustomer email phone now db
    ((200, Except.ok r.1), r.2)

/-- Whether an engine result is a success. -/
def isOkE : Except String IdentifyResponse → Bool
  | Except.ok _ => true
  | Except.error _ => false

/-- The engine inside its unit of work (index.ts lines 53-162), with an
explicit failure oracle: `failSet` lists the indices, in execution order,
of the `client.query` calls that throw (0 = BEGIN, then the SELECT, the
INSERT when reached, and COMMIT last on each path).  A throw runs the
catch block (lines 155-158): ROLLBACK discards every uncommitted write,
so the store reverts to its pre-call state, and the error is rethrown. -/
def identifyCustomerTx (email : Option String) (phone : Option Nat) (now : Nat) (db : DB)
    (failSet : List Nat) : Except String IdentifyResponse × DB :=
  if failSet.contains 0 then (Except.error "BEGIN failed", db)
  else if failSet.contains 1 then (Except.error "match query failed", db)
  else
    match existingContactsFor email phone db with
    | [] =>
        if failSet.contains 2 then (Except.error "insert failed", db)
        else if failSet.contains 3 then (Except.error "COMMIT failed", db)
        else
          let r := identifyNew email phone now db
          (Except.ok r.1, r.2)
    | pc :: _ =>
        if failSet.contains 2 then (Except.error "linked query failed", db)
        else
          let cluster := gatherCluster pc db
          if hasNewEmailB email cluster || hasNewPhoneB phone cluster then
            if failSet.contains 3 then (Except.error "insert failed", db)
            else if failSet.contains 4 then (Except.error "COMMIT failed", db)
            else
              let r := identifyMatched pc email phone now db
              (Except.ok r.1, r.2)
          else
            if failSet.contains 3 then (Except.error "COMMIT failed", db)
            else
              let r := identifyMatched pc email phone now db
              (Except.ok r.1, r.2)

/-- The consolidation rule in the words of the specification: primary id;
emails deduplicated with the email of the working primary first, then the
emails of the other cluster members in ascending createdAt order; phones
under the same rule; the non-primary ids in ascending createdAt order. -/
def consolidateView (pc : Contact) (secs : List Contact) : ContactView :=
  { primaryContactId := pc.id
  , emails := dedupFirst ((pc :: sortByCreatedAt secs).filterMap (fun c => c.email))
  , phoneNumbers := dedupFirst ((pc :: sortByCreatedAt secs).filterMap (fun c => c.phoneNumber))
  , secondaryContactIds := (sortByCreatedAt secs).map (fun c => c.id) }

theorem identifyCustomer_eq_new {email : Option String} {phone : Option Nat} {now : Nat}
    {db : DB} (h : existingContactsFor email phone db = []) :
    identifyCustomer email phone now db = identifyNew email phone now db := by
  unfold identifyCustomer
  rw [h]

theorem identifyCustomer_eq_matched {email : Option String} {phone : Option Nat} {now : Nat}
    {db : DB} {pc : Contact} {rest : List Contact}
    (h : existingContactsFor email phone db = pc :: rest) :
    identifyCustomer email phone now db = identifyMatched pc email phone now db := by
  unfold identifyCustomer
  rw [h]

theorem mem_insertByCreatedAt (a c : Contact) (l : List Contact) :
    a ∈ insertByCreatedAt c l ↔ a = c ∨ a ∈ l := by
  induction l with
  | nil => simp [insertByCreatedAt]
  | cons d ds ih =>
      simp only [insertByCreatedAt]
      split
      · simp [List.mem_cons]
      · simp only [List.mem_cons, ih]
        tauto

theorem mem_sortByCreatedAt (a : Contact) (l : List Contact) :
    a ∈ sortByCreatedAt l ↔ a ∈ l := by
  induction l with
  | nil => simp [sortByCreatedAt]
  | cons c cs ih => simp [sortByCreatedAt, mem_insertByCreatedAt, ih]

theorem insertByCreatedAt_append_max (x m : Contact) (l : List Contact)
    (h : x.createdAt ≤ m.createdAt) :
    insertByCreatedAt x (l ++ [m]) = insertByCreatedAt x l ++ [m] := by
  induction l with
  | nil => simp [insertByCreatedAt, h]
  | cons d ds ih =>
      simp only [List.cons_append, insertByCreatedAt]
      split
      · simp
      · simp [ih]

theorem sortByCreatedAt_append_max (m : Contact) (l : List Contact)
    (h : ∀ x ∈ l, x.createdAt ≤ m.createdAt) :
    sortByCreatedAt (l ++ [m]) = sortByCreatedAt l ++ [m] := by
  induction l with
  | nil => rfl
  | cons a as ih =>
      simp only [List.cons_append, sortByCreatedAt, List.append_eq]
      rw [ih (fun x hx => h x (List.mem_cons_of_mem a hx))]
      exact insertByCreatedAt_append_max a m _ (h a (List.mem_cons_self a as))

theorem eq_of_id_eq {l : List Contact} (h : (l.map (fun c => c.id)).Nodup)
    {a b : Contact} (ha : a ∈ l) (hb : b ∈ l) (hid : a.id = b.id) : a = b := by
  induction l with
  | nil => cases ha
  | cons x xs ih =>
      rw [List.map_cons, List.nodup_cons] at h
      rcases List.mem_cons.1 ha with rfl | ha₂
      · rcases List.mem_cons.1 hb with rfl | hb₂
        · rfl
        · exact absurd (hid ▸ List.mem_map_of_mem (fun c => c.id) hb₂) h.1
      · rcases List.mem_cons.1 hb with rfl | hb₂
        · exact absurd (hid ▸ List.mem_map_of_mem (fun c => c.id) ha₂) h.1
        · exact ih h.2 ha₂ hb₂

theorem head_existing_mem {email : Option String} {phone : Option Nat} {db : DB}
    {pc : Contact} {rest : List Contact}
    (h : existingContactsFor email phone db = pc :: rest) : pc ∈ db.contacts := by
  unfold existingContactsFor at h
  split at h
  · have hmem : pc ∈ sortByCreatedAt (db.contacts.filter (matchesInput email phone)) := by
      rw [h]; exact List.mem_cons_self pc rest
    have := (mem_sortByCreatedAt pc _).1 hmem
    exact (List.mem_filter.1 this).1
  · cases h

/-- Sanity check: with no injected failure, the unit of work refines the
pure engine. -/
theorem identifyCustomerTx_no_failure (email : Option String) (phone : Option Nat)
    (now : Nat) (db : DB) :
    identifyCustomerTx email phone now db []
      = (Except.ok (identifyCustomer email phone now db).1,
         (identifyCustomer email phone now db).2) := by
  unfold identifyCustomerTx identifyCustomer
  cases hE : existingContactsFor email phone db with
  | nil => rfl
  | cons pc rest =>
      simp only [List.contains, List.elem, if_false, Bool.false_eq_true, ite_false]
      split <;> rfl

/-- C1: the claimed merge never happens.  Starting from an empty store,
two independent primaries are created (id 1 older, id 2 newer); resolving
with the email of cluster 1 and the phone of cluster 2 leaves contact 2 a
primary with null linkedId, creates a fresh secondary id 3 under contact 1
instead, and the view omits both the email of contact 2 and its id. -/
def c1Bridge : IdentifyResponse × DB :=
  identifyCustomer (some "e1@x") (some 6) 3
    ((identifyCustomer (some "e2@x") (some 6) 2
      ((identifyCustomer (some "e1@x") (some 5) 1 ⟨[], 1⟩).2)).2)

theorem c1_no_merge_performed :
    (∃ c ∈ c1Bridge.2.contacts,
        c.id = 2 ∧ c.linkPrecedence = LinkPrecedence.primary ∧ c.linkedId = none) ∧
    c1Bridge.1.contact.secondaryContactIds = [3] ∧
    c1Bridge.1.contact.emails = ["e1@x"] ∧
    ¬ (2 ∈ c1Bridge.1.contact.secondaryContactIds) ∧
    ¬ ("e2@x" ∈ c1Bridge.1.contact.emails) := by decide

/-- C2: the forest invariant is broken by the engine itself.  From an
empty store, three calls produce a secondary (id 3) whose linkedId
references contact 2, which is itself a secondary. -/
def c2Trace : IdentifyResponse × DB :=
  identifyCustomer (some "b@x") (some 8) 3
    ((identifyCustomer (some "b@x") (some 7) 2
      ((identifyCustomer (some "a@x") (some 7) 1 ⟨[], 1⟩).2)).2)

theorem c2_secondary_links_secondary :
    ∃ c ∈ c2Trace.2.contacts, ∃ d ∈ c2Trace.2.contacts,
      c.linkPrecedence = LinkPrecedence.secondary ∧ c.linkedId = some d.id ∧
      d.linkPrecedence = LinkPrecedence.secondary := by decide

/-- C3: the working primary is not resolved to a cluster root.  When the
only matched row is a secondary, the engine uses it as the working primary
and returns its id as primaryContactId, even though its linkPrecedence is
secondary. -/
def c3Trace : IdentifyResponse × DB :=
  identifyCustomer (some "s@t") (some 4) 3
    ((identifyCustomer (some "s@t") (some 9) 2
      ((identifyCustomer (some "p@q") (some 9) 1 ⟨[], 1⟩).2)).2)

theorem c3_working_primary_is_secondary :
    c3Trace.1.contact.primaryContactId = 2 ∧
    (∃ c ∈ c3Trace.2.contacts, c.id = 2 ∧ c.linkPrecedence = LinkPrecedence.secondary) := by
  decide

/-- C4: when both inputs are absent the handler rejects the request with
HTTP status 400 and a client-error message, the engine is never invoked,
and the store is returned unchanged. -/
theorem c4_invalid_input_rejected (now : Nat) (db : DB) :
    handleIdentify none none now db
      = ((400, Except.error "At least one of email or phoneNumber is required"), db) := rfl

/-- C10: the engine is append-only.  Every call leaves the pre-existing
rows untouched: the resulting table is exactly the old table with zero or
one freshly inserted row appended, so no linkPrecedence, linkedId, email,
phone or updatedAt of an existing contact is ever modified. -/
theorem c10_append_only (email : Option String) (phone : Option Nat) (now : Nat) (db : DB) :
    ∃ tail, (identifyCustomer email phone now db).2.contacts = db.contacts ++ tail ∧
      ∀ c ∈ db.contacts, c ∈ (identifyCustomer email phone now db).2.contacts := by
  cases hE : existingContactsFor email phone db with
  | nil =>
      rw [identifyCustomer_eq_new hE]
      exact ⟨[mkContact db.nextId email phone none LinkPrecedence.primary now], rfl,
        fun c hc => List.mem_append_left _ hc⟩
  | cons pc rest =>
      rw [identifyCustomer_eq_matched hE]
      simp only [identifyMatched]
      split
      · exact ⟨[mkContact db.nextId email phone (some pc.id) LinkPrecedence.secondary now], rfl,
          fun c hc => List.mem_append_left _ hc⟩
      · exact ⟨[], (List.append_nil _).symm, fun c hc => hc⟩

/-- C6 counterexample: resolving a brand-new customer with a zero numeric
phone stores the non-null phone "0" on the created primary, yet the
returned singleton view lists no phone numbers, so the view does not
carry the non-null phone of the created contact. -/
theorem c6_zero_phone_counterexample :
    let out := identifyCustomer (some "doc@f") (some 0) 1 ⟨[], 1⟩
    out.2.contacts.map (fun c => c.phoneNumber) = [some "0"] ∧
    out.1.contact.primaryContactId = 1 ∧
    out.1.contact.phoneNumbers = [] := by decide

/-- C7 counterexample: on the new-customer path the view is built from the
raw inputs under JavaScript truthiness, so a zero phone is stored as "0"
on the working primary but omitted from phoneNumbers, breaking the rule
that the phone of the primary comes first when present. -/
theorem c7_zero_phone_view_counterexample :
    let out := identifyCustomer (some "x@y") (some 0) 2 ⟨[], 1⟩
    out.2.contacts.map (fun c => c.phoneNumber) = [some "0"] ∧
    out.1.contact.phoneNumbers = [] := by decide

/-- C5: resolving a pair whose email and phone both already appear in the
gathered cluster performs zero writes — the store is returned unchanged —
and any repeated identical call (at any later timestamp) returns the very
same consolidated view and state. -/
theorem c5_idempotent_pure_read (e : String) (p : Nat) (now : Nat) (db : DB)
    (pc : Contact) (rest : List Contact)
    (h : existingContactsFor (some e) (some p) db = pc :: rest)
    (he : (gatherCluster pc db).any (fun c => c.email == some e) = true)
    (hp : (gatherCluster pc db).any (fun c => c.phoneNumber == some (Nat.repr p)) = true) :
    (identifyCustomer (some e) (some p) now db).2 = db ∧
    ∀ now₂, identifyCustomer (some e) (some p) now₂ db
      = identifyCustomer (some e) (some p) now db := by
  have hcond : (hasNewEmailB (some e) (gatherCluster pc db)
      || hasNewPhoneB (some p) (gatherCluster pc db)) = false := by
    simp [hasNewEmailB, hasNewPhoneB, he, hp]
  have hrun : ∀ t, identifyCustomer (some e) (some p) t db
      = (⟨consolidate pc (gatherCluster pc db)⟩, db) := by
    intro t
    rw [identifyCustomer_eq_matched h]
    simp [identifyMatched, hcond]
  exact ⟨by rw [hrun now], fun now₂ => by rw [hrun now₂, hrun now]⟩

def c5wContact : Contact :=
  ⟨1, some "5", some "a@b", none, LinkPrecedence.primary, 1, 1, none⟩

def c5wDB : DB := ⟨[c5wContact], 2⟩

theorem c5_idempotent_pure_read_witness :
    existingContactsFor (some "a@b") (some 5) c5wDB = c5wContact :: [] ∧
    (gatherCluster c5wContact c5wDB).any (fun c => c.email == some "a@b") = true ∧
    (gatherCluster c5wContact c5wDB).any
      (fun c => c.phoneNumber == some (Nat.repr 5)) = true ∧
    (identifyCustomer (some "a@b") (some 5) 9 c5wDB).2 = c5wDB :=
  ⟨by decide, by decide, by decide,
    (c5_idempotent_pure_read "a@b" 5 9 c5wDB c5wContact [] (by decide) (by decide)
      (by decide)).1⟩

/-- C6 (amended): a call matching no existing row creates exactly one new
contact, a primary with null linkedId, whose stored email is the input
email unless falsy (absent or empty, stored as NULL) and whose stored
phone is the decimal string of the numeric input (zero stored as "0");
the view is a singleton whose entries follow JavaScript truthiness of the
raw inputs, so a zero phone and an empty email are omitted from it. -/
theorem c6_new_customer_amended (email : Option String) (phone : Option Nat) (now : Nat)
    (db : DB) (h : existingContactsFor email phone db = []) :
    (identifyCustomer email phone now db).2.contacts
        = db.contacts ++ [mkContact db.nextId email phone none LinkPrecedence.primary now] ∧
    (mkContact db.nextId email phone none LinkPrecedence.primary now).linkPrecedence
        = LinkPrecedence.primary ∧
    (mkContact db.nextId email phone none LinkPrecedence.primary now).linkedId = none ∧
    (mkContact db.nextId email phone none LinkPrecedence.primary now).email
        = emailParam email ∧
    (mkContact db.nextId email phone none LinkPrecedence.primary now).phoneNumber
        = phoneParam phone ∧
    (identifyCustomer email phone now db).1
        = ⟨{ primaryContactId := db.nextId
           , emails := rawEmailList email
           , phoneNumbers := rawPhoneList phone
           , secondaryContactIds := [] }⟩ := by
  rw [identifyCustomer_eq_new h]
  exact ⟨rfl, rfl, rfl, rfl, rfl, rfl⟩

theorem c6_new_customer_amended_witness :
    existingContactsFor (some "n@c") (some 12) ⟨[], 1⟩ = [] ∧
    (identifyCustomer (some "n@c") (some 12) 1 ⟨[], 1⟩).2.contacts
      = [] ++ [mkContact 1 (some "n@c") (some 12) none LinkPrecedence.primary 1] :=
  ⟨by decide, (c6_new_customer_amended (some "n@c") (some 12) 1 ⟨[], 1⟩ (by decide)).1⟩

/-- C8: any contact created by a call with numeric phone p stores exactly
the canonical decimal string of p, and therefore satisfies the match
predicate of every later call with the same numeric input whose query is
reached (at least one raw input truthy): the read-path normalization
equals the write-path normalization. -/
theorem c8_phone_normalization (email : Option String) (p : Nat) (now : Nat) (db : DB)
    (c : Contact)
    (h : (identifyCustomer email (some p) now db).2.contacts = db.contacts ++ [c]) :
    c.phoneNumber = some (Nat.repr p) ∧
    ∀ email₂ db₂, c ∈ db₂.contacts →
      (truthyStr email₂ || truthyNum (some p)) = true →
      c ∈ existingContactsFor email₂ (some p) db₂ := by
  have hc : c.phoneNumber = some (Nat.repr p) ∧ c.deletedAt = none := by
    cases hE : existingContactsFor email (some p) db with
    | nil =>
        rw [identifyCustomer_eq_new hE] at h
        have h' : db.contacts
            ++ [mkContact db.nextId email (some p) none LinkPrecedence.primary now]
            = db.contacts ++ [c] := h
        have h3 : mkContact db.nextId email (some p) none LinkPrecedence.primary now = c := by
          simpa using (List.append_inj h' rfl).2
        exact h3 ▸ ⟨rfl, rfl⟩
    | cons pc rest =>
        rw [identifyCustomer_eq_matched hE] at h
        simp only [identifyMatched] at h
        by_cases hN : (hasNewEmailB email (gatherCluster pc db)
            || hasNewPhoneB (some p) (gatherCluster pc db)) = true
        · rw [if_pos hN] at h
          have h' : db.contacts ++ [mkContact db.nextId email (some p) (some pc.id)
              LinkPrecedence.secondary now] = db.contacts ++ [c] := h
          have h3 : mkContact db.nextId email (some p) (some pc.id)
              LinkPrecedence.secondary now = c := by
            simpa using (List.append_inj h' rfl).2
          exact h3 ▸ ⟨rfl, rfl⟩
        · rw [if_neg hN] at h
          have h' : db.contacts = db.contacts ++ [c] := h
          have := congrArg List.length h'
          simp at this
  refine ⟨hc.1, fun email₂ db₂ hmem htr => ?_⟩
  unfold existingContactsFor
  rw [if_pos htr, mem_sortByCreatedAt]
  refine List.mem_filter.2 ⟨hmem, ?_⟩
  simp [matchesInput, optEq, phoneParam, hc.1, hc.2]

def c8wContact : Contact := mkContact 1 none (some 7) none LinkPrecedence.primary 1

theorem c8_phone_normalization_witness :
    (identifyCustomer none (some 7) 1 ⟨[], 1⟩).2.contacts = [] ++ [c8wContact] ∧
    c8wContact ∈ existingContactsFor none (some 7) ⟨[c8wContact], 2⟩ :=
  ⟨by decide,
    (c8_phone_normalization none 7 1 ⟨[], 1⟩ c8wContact (by decide)).2 none
      ⟨[c8wContact], 2⟩ (by decide) (by decide)⟩

/-- C9: whenever any step of the unit of work throws before its COMMIT is
executed, the catch block rolls every write of the call back — the store
is returned exactly in its pre-call state — and the error is propagated
to the caller. -/
theorem c9_rollback_on_failure (email : Option String) (phone : Option Nat) (now : Nat)
    (db : DB) (failSet : List Nat)
    (h : isOkE (identifyCustomerTx email phone now db failSet).1 = false) :
    (identifyCustomerTx email phone now db failSet).2 = db := by
  by_cases h0 : (0 : Nat) ∈ failSet
  · simp [identifyCustomerTx, h0]
  · by_cases h1 : (1 : Nat) ∈ failSet
    · simp [identifyCustomerTx, h0, h1]
    · cases hE : existingContactsFor email phone db with
      | nil =>
          by_cases h2 : (2 : Nat) ∈ failSet
          · simp [identifyCustomerTx, h0, h1, hE, h2]
          · by_cases h3 : (3 : Nat) ∈ failSet
            · simp [identifyCustomerTx, h0, h1, hE, h2, h3]
            · exfalso
              simp [identifyCustomerTx, h0, h1, hE, h2, h3, isOkE] at h
      | cons pc rest =>
          by_cases h2 : (2 : Nat) ∈ failSet
          · simp [identifyCustomerTx, h0, h1, hE, h2]
          · by_cases hN : (hasNewEmailB email (gatherCluster pc db) = true
                ∨ hasNewPhoneB phone (gatherCluster pc db) = true)
            · by_cases h3 : (3 : Nat) ∈ failSet
              · simp [identifyCustomerTx, h0, h1, hE, h2, hN, h3]
              · by_cases h4 : (4 : Nat) ∈ failSet
                · simp [identifyCustomerTx, h0, h1, hE, h2, hN, h3, h4]
                · exfalso
                  simp [identifyCustomerTx, h0, h1, hE, h2, hN, h3, h4, isOkE] at h
            · by_cases h3 : (3 : Nat) ∈ failSet
              · simp [identifyCustomerTx, h0, h1, hE, h2, hN, h3]
              · exfalso
                simp [identifyCustomerTx, h0, h1, hE, h2, hN, h3, isOkE] at h

theorem c9_rollback_on_failure_witness :
    isOkE (identifyCustomerTx (some "w@z") none 1 ⟨[], 1⟩ [0]).1 = false ∧
    (identifyCustomerTx (some "w@z") none 1 ⟨[], 1⟩ [0]).2 = ⟨[], 1⟩ :=
  ⟨by decide, c9_rollback_on_failure (some "w@z") none 1 ⟨[], 1⟩ [0] (by decide)⟩

theorem filter_ne_id_eq_self (pid : Nat) (l : List Contact)
    (hall : ∀ x ∈ l, (x.id == pid) = false) :
    l.filter (fun c => !(c.id == pid)) = l := by
  induction l with
  | nil => rfl
  | cons a as ih =>
      rw [List.filter_cons]
      have ha := hall a (List.mem_cons_self a as)
      simp [ha, ih (fun x hx => hall x (List.mem_cons_of_mem a hx))]

/-- C7 (amended): on every call that matches at least one existing row —
assuming unique ids, no self links and a clock at or past every stored
createdAt — the returned view equals the consolidation rule of the
specification applied to the working primary (the first matched row) and
the final set of rows linked to it: emails deduplicated with the email of
the working primary first followed by the linked rows in ascending
createdAt order, phones under the same rule, and the linked ids in
ascending createdAt order. -/
theorem c7_consolidation_order_matched (email : Option String) (phone : Option Nat)
    (now : Nat) (db : DB) (pc : Contact) (rest : List Contact)
    (h : existingContactsFor email phone db = pc :: rest)
    (hnow : ∀ c ∈ db.contacts, c.createdAt ≤ now)
    (hnodup : (db.contacts.map (fun c => c.id)).Nodup)
    (hbound : ∀ c ∈ db.contacts, c.id < db.nextId)
    (hself : ∀ c ∈ db.contacts, c.linkedId ≠ some c.id) :
    (identifyCustomer email phone now db).1.contact
      = consolidateView pc
          (((identifyCustomer email phone now db).2).contacts.filter (linkedToB pc.id)) := by
  have hpc : pc ∈ db.contacts := head_existing_mem h
  have hSsub : ∀ x ∈ db.contacts.filter (linkedToB pc.id), x ∈ db.contacts :=
    fun x hx => (List.mem_filter.1 hx).1
  have hSid : ∀ x ∈ db.contacts.filter (linkedToB pc.id), (x.id == pc.id) = false := by
    intro x hx
    refine beq_eq_false_iff_ne.2 (fun hEq => ?_)
    have hxeq : x = pc := eq_of_id_eq hnodup (hSsub x hx) hpc hEq
    have hlink := (List.mem_filter.1 hx).2
    rw [hxeq] at hlink
    unfold linkedToB at hlink
    simp only [linkedToB, Bool.and_eq_true, beq_iff_eq] at hlink
    exact hself pc hpc hlink.1
  rw [identifyCustomer_eq_matched h]
  by_cases hN : (hasNewEmailB email (gatherCluster pc db)
      || hasNewPhoneB phone (gatherCluster pc db)) = true
  · simp only [identifyMatched]
    rw [if_pos hN]
    have hfilt : (db.contacts
          ++ [mkContact db.nextId email phone (some pc.id) LinkPrecedence.secondary now]).filter
            (linkedToB pc.id)
        = db.contacts.filter (linkedToB pc.id)
          ++ [mkContact db.nextId email phone (some pc.id) LinkPrecedence.secondary now] := by
      rw [List.filter_append]
      congr 1
      simp [linkedToB, mkContact]
    have hsort : sortByCreatedAt (db.contacts.filter (linkedToB pc.id)
          ++ [mkContact db.nextId email phone (some pc.id) LinkPrecedence.secondary now])
        = sortByCreatedAt (db.contacts.filter (linkedToB pc.id))
          ++ [mkContact db.nextId email phone (some pc.id) LinkPrecedence.secondary now] :=
      sortByCreatedAt_append_max _ _ (fun x hx => hnow x (hSsub x hx))
    simp only [hfilt, consolidateView, consolidate, hsort, gatherCluster, secondariesOf,
      List.cons_append]
    have hall : ∀ x ∈ sortByCreatedAt (db.contacts.filter (linkedToB pc.id))
          ++ [mkContact db.nextId email phone (some pc.id) LinkPrecedence.secondary now],
        (x.id == pc.id) = false := by
      intro x hx
      rcases List.mem_append.1 hx with hx₁ | hx₂
      · exact hSid x ((mem_sortByCreatedAt x _).1 hx₁)
      · have hx3 : x = mkContact db.nextId email phone (some pc.id)
            LinkPrecedence.secondary now := by simpa using hx₂
        have hlt : pc.id < db.nextId := hbound pc hpc
        rw [hx3]
        exact beq_eq_false_iff_ne.2 (fun hEq => by
          exact absurd hEq (Nat.ne_of_gt hlt))
    simp only [ContactView.mk.injEq]
    refine ⟨trivial, trivial, trivial, ?_⟩
    rw [List.filter_cons]
    simp only [beq_self_eq_true, Bool.not_true, Bool.false_eq_true, if_false,
      filter_ne_id_eq_self pc.id _ hall]
  · simp only [identifyMatched]
    rw [if_neg hN]
    simp only [consolidateView, consolidate, gatherCluster, secondariesOf]
    have hall : ∀ x ∈ sortByCreatedAt (db.contacts.filter (linkedToB pc.id)),
        (x.id == pc.id) = false :=
      fun x hx => hSid x ((mem_sortByCreatedAt x _).1 hx)
    simp only [ContactView.mk.injEq]
    refine ⟨trivial, trivial, trivial, ?_⟩
    rw [List.filter_cons]
    simp only [beq_self_eq_true, Bool.not_true, Bool.false_eq_true, if_false,
      filter_ne_id_eq_self pc.id _ hall]

def c7wContact : Contact :=
  ⟨1, some "9", some "m@n", none, LinkPrecedence.primary, 1, 1, none⟩

def c7wDB : DB := ⟨[c7wContact], 2⟩

theorem c7_consolidation_order_matched_witness :
    existingContactsFor (some "q@n") (some 9) c7wDB = c7wContact :: [] ∧
    (identifyCustomer (some "q@n") (some 9) 5 c7wDB).1.contact
      = consolidateView c7wContact
          (((identifyCustomer (some "q@n") (some 9) 5 c7wDB).2).contacts.filter
            (linkedToB c7wContact.id)) :=
  ⟨by decide,
    c7_consolidation_order_matched (some "q@n") (some 9) 5 c7wDB c7wContact []
      (by decide) (by decide) (by decide) (by decide) (by decide)⟩

end BiteSpeed
